import Mathlib

/-!
Verification of `github-commit-summarizer` against its specification.

This file shallowly embeds the Python sources (`daily_workflow.py`,
`fetch_github_commits.py`, `linkedin_post.py`) into Lean.  Python strings are
modelled as `List Char` (a Python `str` is a sequence of Unicode code points,
`len`/slicing/`split` act on code points).  HTTP calls are modelled by passing
the remote response as an explicit argument; a Python exception is modelled by
`Except`.  Each definition carries a comment pointing at the source lines it
embeds.
-/

/-- The character for decimal digit `d` (`0 ≤ d ≤ 9`): Python `chr(48 + d)`. -/
def digitToChar (d : Nat) : Char := Char.ofNat (48 + d)

/-- Decimal digit characters of a natural number, accumulator style: the
embedding of Python `str(n)` for a non-negative `int` (least significant digit
is computed first and consed onto the accumulator).  The first argument is
structural fuel; any fuel of at least the number of digits (in particular `n`
itself) yields the digits of `n`. -/
def natStrAux (fuel : Nat) (n : Nat) (acc : List Char) : List Char :=
  match fuel with
  | 0 => acc
  | fuel + 1 =>
    if n = 0 then acc else natStrAux fuel (n / 10) (digitToChar (n % 10) :: acc)

/-- Embedding of Python `str(n)` (decimal rendering of a non-negative integer,
as interpolated by every f-string in the sources). -/
def natStr (n : Nat) : List Char :=
  if n = 0 then ['0'] else natStrAux n n []

/-- Number of decimal digits of `n` (`0` for `n = 0`); the length of
`natStrAux n []`. -/
def numLen (n : Nat) : Nat :=
  if h : n = 0 then 0 else numLen (n / 10) + 1
termination_by n
decreasing_by exact Nat.div_lt_self (Nat.pos_of_ne_zero h) (by decide)

theorem numLen_eq {n : Nat} (h : n ≠ 0) : numLen n = numLen (n / 10) + 1 := by
  rw [numLen]
  simp [h]

theorem natStrAux_length : ∀ (fuel n : Nat), n ≤ fuel → ∀ acc : List Char,
    (natStrAux fuel n acc).length = numLen n + acc.length := by
  intro fuel
  induction fuel with
  | zero =>
    intro n hn acc
    have h0 : n = 0 := Nat.le_zero.mp hn
    subst h0
    rw [natStrAux, numLen]
    simp
  | succ fuel ih =>
    intro n hn acc
    by_cases h : n = 0
    · subst h
      rw [natStrAux, numLen]
      simp
    · rw [natStrAux]
      simp only [h, if_false]
      have hdiv : n / 10 ≤ fuel := by
        have := Nat.div_lt_self (Nat.pos_of_ne_zero h) (show 1 < 10 by decide)
        omega
      rw [ih (n / 10) hdiv, numLen_eq h]
      simp
      omega

theorem numLen_mono : ∀ {m n : Nat}, m ≤ n → numLen m ≤ numLen n := by
  intro m n h
  induction n using Nat.strong_induction_on generalizing m with
  | _ n ih =>
    by_cases hm : m = 0
    · subst hm
      rw [numLen]
      simp
    · have hn : n ≠ 0 := by omega
      rw [numLen_eq hm, numLen_eq hn]
      have hdiv : m / 10 ≤ n / 10 := Nat.div_le_div_right h
      exact Nat.add_le_add_right (ih (n / 10) (Nat.div_lt_self (Nat.pos_of_ne_zero hn) (by decide)) hdiv) 1

theorem numLen_pos {n : Nat} (h : n ≠ 0) : 1 ≤ numLen n := by
  rw [numLen]
  simp [h]

/-- The length of the decimal rendering is monotone in the number. -/
theorem natStr_length_mono {m n : Nat} (h : m ≤ n) :
    (natStr m).length ≤ (natStr n).length := by
  unfold natStr
  by_cases hm : m = 0
  · subst hm
    by_cases hn : n = 0
    · simp [hn]
    · simp only [hn, if_false, if_true, List.length_singleton]
      rw [natStrAux_length n n (Nat.le_refl n)]
      simpa using numLen_pos hn
  · have hn : n ≠ 0 := by omega
    simp only [hm, hn, if_false]
    rw [natStrAux_length m m (Nat.le_refl m), natStrAux_length n n (Nat.le_refl n)]
    simpa using numLen_mono h

theorem digitToChar_mod_ne_newline (n : Nat) : digitToChar (n % 10) ≠ '\n' := by
  have h : n % 10 < 10 := Nat.mod_lt n (by decide)
  set k := n % 10 with hk
  interval_cases k <;> decide

theorem newline_not_mem_natStrAux : ∀ (fuel n : Nat) (acc : List Char),
    '\n' ∉ acc → '\n' ∉ natStrAux fuel n acc := by
  intro fuel
  induction fuel with
  | zero =>
    intro n acc hacc
    rw [natStrAux]
    exact hacc
  | succ fuel ih =>
    intro n acc hacc
    rw [natStrAux]
    by_cases h : n = 0
    · simpa [h] using hacc
    · simp only [h, if_false]
      refine ih (n / 10) _ ?_
      intro hmem
      rcases List.mem_cons.mp hmem with h1 | h2
      · exact digitToChar_mod_ne_newline n h1.symm
      · exact hacc h2

/-- The decimal rendering of a number contains no newline character. -/
theorem newline_not_mem_natStr (n : Nat) : '\n' ∉ natStr n := by
  unfold natStr
  by_cases h : n = 0
  · simp [h]
  · simp only [h, if_false]
    exact newline_not_mem_natStrAux n n [] (by simp)

/-! ### The DSPy example history log (`daily_workflow.py`, lines 112–147) -/

/-- Metrics attached to a generated example (`daily_workflow.py`, lines 173–178). -/
structure GenerationMetrics where
  input_length : Nat
  output_length : Nat
  word_count : Nat
  timestamp : List Char
deriving DecidableEq

/-- A DSPy example record as built in `save_dspy_example`
(`daily_workflow.py`, lines 128–133).  The `metrics` field is `none` when the
caller passed `None` (stored as `{}` by the Python code). -/
structure DspyExample where
  timestamp : List Char
  commits_summary : List Char
  generated_post : List Char
  metrics : Option GenerationMetrics
deriving DecidableEq

/-- Constructs the example dict of `save_dspy_example`
(`daily_workflow.py`, lines 128–133): the commit summary is truncated to its
first 1000 characters (`commits_summary[:1000]`). -/
def mkDspyExample (timestamp commits_summary generated_post : List Char)
    (metrics : Option GenerationMetrics) : DspyExample :=
  { timestamp := timestamp
    commits_summary := commits_summary.take 1000
    generated_post := generated_post
    metrics := metrics }

/-- One read-modify-write of the example log, `save_dspy_example`
(`daily_workflow.py`, lines 126–147): the new example is appended to the loaded
log, and if the result holds more than 50 entries only the last 50
(`examples[-50:]`) are retained. -/
def save_dspy_example (examples0 : List DspyExample) (e : DspyExample) :
    List DspyExample :=
  let examples := examples0 ++ [e]
  if examples.length > 50 then examples.drop (examples.length - 50) else examples

/-- The log contents after a sequence of generation calls, starting from an
empty log (the state of `dspy_examples.json` after each call appends via
`save_dspy_example`). -/
def histAfter (es : List DspyExample) : List DspyExample :=
  es.foldl save_dspy_example []

theorem save_dspy_example_drop (es : List DspyExample) (e : DspyExample) :
    save_dspy_example (es.drop (es.length - 50)) e =
      (es ++ [e]).drop ((es ++ [e]).length - 50) := by
  unfold save_dspy_example
  by_cases h : es.length ≤ 49
  · have h0 : es.length - 50 = 0 := by omega
    have h1 : (es ++ [e]).length - 50 = 0 := by simp; omega
    simp only [h0, h1, List.drop_zero]
    have hlen : (es ++ [e]).length ≤ 50 := by simp; omega
    simp only [gt_iff_lt]
    rw [if_neg (by omega)]
  · have h50 : 50 ≤ es.length := by omega
    have hdlen : (es.drop (es.length - 50)).length = 50 := by
      rw [List.length_drop]; omega
    have hcond : (es.drop (es.length - 50) ++ [e]).length > 50 := by
      simp [hdlen]
    rw [if_pos hcond]
    have harith : (es.drop (es.length - 50) ++ [e]).length - 50 = 1 := by
      simp [hdlen]
    rw [harith]
    have hdrop1 : (es.drop (es.length - 50) ++ [e]).drop 1 =
        (es.drop (es.length - 50)).drop 1 ++ [e] :=
      List.drop_append_of_le_length (by omega)
    rw [hdrop1, List.drop_drop]
    have harith2 : (es ++ [e]).length - 50 = es.length - 50 + 1 := by
      simp; omega
    rw [harith2]
    rw [List.drop_append_of_le_length (by omega)]

/-- After any sequence of calls the log equals the last 50 entries appended. -/
theorem histAfter_eq (es : List DspyExample) :
    histAfter es = es.drop (es.length - 50) := by
  induction es using List.reverseRecOn with
  | nil => rfl
  | append_singleton es e ih =>
    unfold histAfter at ih ⊢
    rw [List.foldl_concat, ih, save_dspy_example_drop]

/-- C1: for every sequence of generation calls, the example-history log
produced by `save_dspy_example` never holds more than 50 entries, and after
appending entry `N + 51` the retained entries are exactly entries `N + 2`
through `N + 51` (1-indexed) in their original order: the log equals the input
sequence with its first `N + 1` entries dropped. -/
theorem save_dspy_example_bounded (es : List DspyExample) :
    (histAfter es).length ≤ 50 ∧
      ∀ N : Nat, es.length = N + 51 → histAfter es = es.drop (N + 1) := by
  constructor
  · rw [histAfter_eq, List.length_drop]
    omega
  · intro N hN
    rw [histAfter_eq, hN]
    congr 1

/-- Witness for C1 at a concrete sequence of 51 identical entries. -/
theorem save_dspy_example_bounded_witness :
    (histAfter (List.replicate 51 (mkDspyExample [] [] [] none))).length ≤ 50 ∧
      histAfter (List.replicate 51 (mkDspyExample [] [] [] none)) =
        (List.replicate 51 (mkDspyExample [] [] [] none)).drop 1 :=
  ⟨(save_dspy_example_bounded (List.replicate 51 (mkDspyExample [] [] [] none))).1,
    (save_dspy_example_bounded (List.replicate 51 (mkDspyExample [] [] [] none))).2 0 rfl⟩

/-! ### Commit records and the formatter (`fetch_github_commits.py`) -/

/-- A file change as assembled by `summarize_diff`
(`fetch_github_commits.py`, lines 92–112). -/
structure FileChange where
  file : List Char
  status : List Char
  additions : Nat
  deletions : Nat
  changes : Nat
  patch : List Char
deriving DecidableEq

/-- Aggregate commit statistics (`details["stats"]`, with the `.get(_, 0)`
defaults applied at line 136–138 of `fetch_github_commits.py`). -/
structure CommitStats where
  additions : Nat
  deletions : Nat
  total : Nat
deriving DecidableEq

/-- A commit record as assembled in `fetch_commits_from_last_24_hours`
(`fetch_github_commits.py`, lines 228–237). -/
structure CommitRecord where
  repository : List Char
  sha : List Char
  message : List Char
  author : List Char
  date : List Char
  url : List Char
  files : List FileChange
  stats : CommitStats
deriving DecidableEq

/-- The status-to-emoji table of `format_commits_for_analysis`
(`fetch_github_commits.py`, lines 142–147), default `📄`. -/
def statusEmoji (status : List Char) : List Char :=
  if status = "added".toList then "➕".toList
  else if status = "removed".toList then "➖".toList
  else if status = "modified".toList then "✏️".toList
  else if status = "renamed".toList then "📝".toList
  else "📄".toList

/-- Python `str.upper()` on the (ASCII) status strings. -/
def upperStr (s : List Char) : List Char := s.map Char.toUpper

/-- Truncation of a raw patch to its first 500 lines
(`fetch_github_commits.py`, lines 155–158): when the patch has more than 500
lines, the first 500 are kept and a truncation-marker line is appended. -/
def truncatePatch (patch : List Char) : List Char :=
  let patch_lines := patch.splitOn '\n'
  if patch_lines.length > 500 then
    List.intercalate ['\n'] (patch_lines.take 500) ++
      ('\n' :: ("... (truncated, ".toList ++ natStr (patch_lines.length - 500)
        ++ " more lines)".toList))
  else patch

/-- The patch text actually included in the formatted output for one file:
the line-truncated patch further capped at 2000 characters
(`patch[:2000]`, `fetch_github_commits.py` line 160). -/
def includedPatchText (patch : List Char) : List Char :=
  (truncatePatch patch).take 2000

/-- The summary parts contributed by one file change
(`fetch_github_commits.py`, lines 141–162). -/
def formatFileEntry (f : FileChange) : List (List Char) :=
  ("\n  ".toList ++ statusEmoji f.status ++ " ".toList ++ f.file ++ " (".toList
      ++ upperStr f.status ++ ")".toList) ::
  ("     +".toList ++ natStr f.additions ++ " -".toList ++ natStr f.deletions
      ++ " lines".toList) ::
  (if f.patch ≠ [] then
    ("\n     Code Changes:".toList) ::
    ("     ".toList ++ includedPatchText f.patch) ::
    (if (truncatePatch f.patch).length > 2000 then
      ["     ... (truncated)".toList] else [])
  else [])

/-- The summary parts contributed by commit number `i` (1-based)
(`fetch_github_commits.py`, lines 125–164). -/
def formatCommitBlock (i : Nat) (c : CommitRecord) : List (List Char) :=
  (List.replicate 80 '=') ::
  ("Commit #".toList ++ natStr i ++ ": ".toList ++ c.repository) ::
  (List.replicate 80 '=') ::
  ("🔗 URL: ".toList ++ c.url) ::
  ("👤 Author: ".toList ++ c.author) ::
  ("📅 Date: ".toList ++ c.date) ::
  ("💬 Message: ".toList ++ c.message) ::
  ("\n📈 Statistics:".toList) ::
  ("  • Files Changed: ".toList ++ natStr c.files.length) ::
  ("  • Total Additions: +".toList ++ natStr c.stats.additions) ::
  ("  • Total Deletions: -".toList ++ natStr c.stats.deletions) ::
  ("  • Total Changes: ".toList ++ natStr c.stats.total ++ " lines".toList) ::
  ("\n📁 Files Changed:".toList) ::
  (c.files.flatMap formatFileEntry ++ ["\n".toList])

/-- The formatter, `format_commits_for_analysis`
(`fetch_github_commits.py`, lines 115–166): renders the commit records into a
single text, or the fixed no-activity sentinel for an empty input.  The parts
are joined with newlines (`"\n".join(summary_parts)`). -/
def format_commits_for_analysis (commits : List CommitRecord) : List Char :=
  if commits = [] then "No commits found in the last 24 hours.".toList
  else
    List.intercalate ['\n']
      (("📊 GitHub Activity Summary - Last 24 Hours".toList) ::
       ("Total Commits: ".toList ++ natStr commits.length ++ ['\n']) ::
       (commits.enumFrom 1).flatMap (fun ic => formatCommitBlock ic.1 ic.2))

/-! ### Patch truncation bounds (claim C5) -/

theorem length_splitOnP {α : Type} (p : α → Bool) : ∀ l : List α,
    (List.splitOnP p l).length = l.countP p + 1
  | [] => by simp
  | x :: l => by
    rw [List.splitOnP_cons, List.countP_cons]
    by_cases h : p x = true
    · simp [h, length_splitOnP p l]
    · simp [h, length_splitOnP p l]

theorem countP_eq_zero_of_mem_splitOnP {α : Type} (p : α → Bool) :
    ∀ (l c : List α), c ∈ List.splitOnP p l → c.countP p = 0
  | [], c, hc => by
    simp only [List.splitOnP_nil, List.mem_singleton] at hc
    subst hc
    simp
  | x :: l, c, hc => by
    rw [List.splitOnP_cons] at hc
    by_cases h : p x = true
    · rw [if_pos h] at hc
      rcases List.mem_cons.mp hc with rfl | hmem
      · simp
      · exact countP_eq_zero_of_mem_splitOnP p l c hmem
    · rw [if_neg h] at hc
      cases hsp : List.splitOnP p l with
      | nil => exact absurd hsp (List.splitOnP_ne_nil p l)
      | cons hd tl =>
        rw [hsp, List.modifyHead_cons] at hc
        rcases List.mem_cons.mp hc with rfl | hmem
        · rw [List.countP_cons]
          have hhd : hd.countP p = 0 :=
            countP_eq_zero_of_mem_splitOnP p l hd (hsp ▸ List.mem_cons_self hd tl)
          simp [h, hhd]
        · exact countP_eq_zero_of_mem_splitOnP p l c
            (hsp ▸ List.mem_cons_of_mem hd hmem)

theorem length_intercalate_single {α : Type} (a : α) : ∀ L : List (List α),
    (List.intercalate [a] L).length = (L.map List.length).sum + (L.length - 1)
  | [] => by rw [List.intercalate]; simp
  | [x] => by rw [List.intercalate]; simp
  | x :: y :: t => by
    have ih := length_intercalate_single a (y :: t)
    rw [List.intercalate] at ih ⊢
    rw [List.intersperse_cons_cons, List.flatten_cons, List.flatten_cons]
    simp only [List.length_append, List.map_cons, List.sum_cons,
      List.length_cons, List.length_singleton, List.length_nil] at ih ⊢
    omega

theorem countP_intercalate_single {α : Type} (p : α → Bool) (a : α) (ha : p a = true) :
    ∀ L : List (List α), (∀ c ∈ L, c.countP p = 0) →
      (List.intercalate [a] L).countP p = L.length - 1
  | [], _ => by rw [List.intercalate]; simp
  | [x], h => by
    rw [List.intercalate]
    simp [h x (List.mem_cons_self x [])]
  | x :: y :: t, h => by
    have ih := countP_intercalate_single p a ha (y :: t)
      (fun c hc => h c (List.mem_cons_of_mem x hc))
    rw [List.intercalate] at ih ⊢
    rw [List.intersperse_cons_cons, List.flatten_cons, List.flatten_cons]
    simp only [List.countP_append, List.countP_cons, List.countP_nil,
      List.length_cons, ha, if_true] at ih ⊢
    have hx : x.countP p = 0 := h x (List.mem_cons_self x _)
    omega

theorem countP_truncatePatch_le (patch : List Char) :
    (truncatePatch patch).countP (· == '\n') ≤ 500 := by
  unfold truncatePatch
  rw [List.splitOn]
  by_cases h : (List.splitOnP (· == '\n') patch).length > 500
  · rw [if_pos h]
    rw [List.countP_append]
    have hchunks : ∀ c ∈ (List.splitOnP (· == '\n') patch).take 500,
        c.countP (· == '\n') = 0 := fun c hc =>
      countP_eq_zero_of_mem_splitOnP _ patch c (List.take_subset _ _ hc)
    have hlen : ((List.splitOnP (· == '\n') patch).take 500).length = 500 := by
      rw [List.length_take]
      omega
    rw [countP_intercalate_single (· == '\n') '\n' (by decide) _ hchunks, hlen]
    have hmarker : ("... (truncated, ".toList ++
        natStr ((List.splitOnP (· == '\n') patch).length - 500) ++
        " more lines)".toList).countP (· == '\n') = 0 := by
      rw [List.countP_append, List.countP_append]
      have h1 : ("... (truncated, ".toList).countP (· == '\n') = 0 := by decide
      have h2 : (" more lines)".toList).countP (· == '\n') = 0 := by decide
      have h3 : (natStr ((List.splitOnP (· == '\n') patch).length - 500)).countP
          (· == '\n') = 0 :=
        List.countP_eq_zero.mpr (fun c hc hp => by
          rw [beq_iff_eq] at hp
          exact newline_not_mem_natStr _ (hp ▸ hc))
      omega
    rw [List.countP_cons]
    simp only [beq_self_eq_true, if_true]
    omega
  · rw [if_neg h]
    have := length_splitOnP (· == '\n') patch
    omega

/-- The number of lines of the patch text actually included in the formatted
output is at most 501: the 500 retained patch lines plus the
truncation-marker line. -/
theorem lines_includedPatchText_le (patch : List Char) :
    (List.splitOn '\n' (includedPatchText patch)).length ≤ 501 := by
  rw [List.splitOn]
  rw [length_splitOnP]
  have h1 : (includedPatchText patch).countP (· == '\n') ≤ 500 := by
    unfold includedPatchText
    exact le_trans
      (List.Sublist.countP_le _ (List.take_sublist _ _))
      (countP_truncatePatch_le patch)
  omega

set_option maxRecDepth 10000 in
/-- C5 counterexample: for a raw patch of 502 empty lines (501 newline
characters), the patch text included in the formatted output consists of the
500 retained empty lines plus the truncation-marker line, 501 lines in all,
so it exceeds the configured cap of 500 lines (the 2000-character cap does
hold there). -/
theorem patch_caps_counterexample :
    ¬ ((includedPatchText (List.replicate 501 '\n')).length ≤ 2000 ∧
       (List.splitOn '\n' (includedPatchText (List.replicate 501 '\n'))).length ≤ 500) := by
  decide

/-- C5 amended: for every commit record and every file change with a patch of
any size, the patch text included in the formatted output never exceeds 2000
characters, and never exceeds 501 lines (500 lines of the original patch plus
at most one appended truncation-marker line). -/
theorem patch_caps_amended (patch : List Char) :
    (includedPatchText patch).length ≤ 2000 ∧
      (List.splitOn '\n' (includedPatchText patch)).length ≤ 501 := by
  constructor
  · unfold includedPatchText
    rw [List.length_take]
    omega
  · exact lines_includedPatchText_le patch

/-! ### Formatter monotonicity and determinism (claim C4) -/

theorem format_length_step (cs : List CommitRecord) (c : CommitRecord)
    (h : cs ≠ []) :
    (format_commits_for_analysis cs).length ≤
      (format_commits_for_analysis (cs ++ [c])).length := by
  have hne2 : cs ++ [c] ≠ [] := by simp
  unfold format_commits_for_analysis
  rw [if_neg h, if_neg hne2]
  rw [List.enumFrom_append]
  rw [length_intercalate_single, length_intercalate_single]
  simp only [List.enumFrom_cons, List.enumFrom_nil, List.flatMap_append,
    List.flatMap_cons, List.flatMap_nil, List.append_nil, List.map_cons,
    List.sum_cons, List.map_append, List.sum_append, List.length_append,
    List.length_cons, List.length_nil, Nat.zero_add, Nat.add_zero]
  have hmono : (natStr cs.length).length ≤ (natStr (cs.length + 1)).length :=
    natStr_length_mono (by omega)
  omega

theorem format_length_mono_aux : ∀ (ds cs : List CommitRecord), cs ≠ [] →
    (format_commits_for_analysis cs).length ≤
      (format_commits_for_analysis (cs ++ ds)).length
  | [], cs, _ => by simp
  | d :: ds, cs, h => by
    refine le_trans (format_length_step cs d h) ?_
    have hne : cs ++ [d] ≠ [] := by simp
    have ih := format_length_mono_aux ds (cs ++ [d]) hne
    rw [List.append_assoc, List.singleton_append] at ih
    exact ih

/-- C4: for all non-empty commit-record sequences, the length of the output of
`format_commits_for_analysis` is monotonically non-decreasing in the number of
commits (appending further commit records never shortens the output), and the
formatter is a pure function: identical input sequences yield identical output
strings. -/
theorem format_monotone_and_deterministic :
    (∀ (cs ds : List CommitRecord), cs ≠ [] →
      (format_commits_for_analysis cs).length ≤
        (format_commits_for_analysis (cs ++ ds)).length) ∧
    (∀ cs cs' : List CommitRecord, cs = cs' →
      format_commits_for_analysis cs = format_commits_for_analysis cs') :=
  ⟨fun cs ds h => format_length_mono_aux ds cs h,
   fun _ _ h => congrArg format_commits_for_analysis h⟩

/-- A minimal concrete commit record, used by the witnesses below. -/
def sampleCommit : CommitRecord :=
  { repository := "user/repo".toList
    sha := "abc1234".toList
    message := "fix".toList
    author := "dev".toList
    date := "2026-01-01T00:00:00Z".toList
    url := "https://example.com/c".toList
    files := []
    stats := { additions := 0, deletions := 0, total := 0 } }

/-- Witness for C4 at concrete inputs. -/
theorem format_monotone_and_deterministic_witness :
    (format_commits_for_analysis [sampleCommit]).length ≤
        (format_commits_for_analysis ([sampleCommit] ++ [sampleCommit])).length ∧
      format_commits_for_analysis [sampleCommit] =
        format_commits_for_analysis [sampleCommit] :=
  ⟨(format_monotone_and_deterministic.1 [sampleCommit] [sampleCommit]
      (List.cons_ne_nil sampleCommit [])),
   (format_monotone_and_deterministic.2 [sampleCommit] [sampleCommit] rfl)⟩

/-! ### Errors raised by the Python code -/

/-- The kinds of Python exception relevant to the embedded code paths:
`ValueError` raises (missing configuration, explicit raises) and
`requests` HTTP/transport errors (`raise_for_status`, `RequestException`). -/
inductive PyError
  | valueError
  | httpError
deriving DecidableEq

/-! ### Persisting an example and the generation step (claims C10) -/

/-- The `try`/`except` around the file write in `save_dspy_example`
(`daily_workflow.py`, lines 142–147): when the write raises, the exception is
caught and only logged; the on-disk log keeps its previous contents.  The
result is the on-disk log after the call — the function itself never
propagates an error. -/
def save_dspy_example_io (writeSucceeds : Bool) (disk : List DspyExample)
    (e : DspyExample) : List DspyExample :=
  let examples := save_dspy_example disk e
  if writeSucceeds then examples else disk

/-- The metrics dict of `analyze_commits_with_dspy`
(`daily_workflow.py`, lines 173–178).  `word_count` is
`len(post_text.split())`: whitespace-separated words, empty pieces
discarded. -/
def mkGenerationMetrics (summary post now : List Char) : GenerationMetrics :=
  { input_length := summary.length
    output_length := post.length
    word_count :=
      ((List.splitOnP (fun c => c.isWhitespace) post).filter (· ≠ [])).length
    timestamp := now }

/-- The generation step `analyze_commits_with_dspy`
(`daily_workflow.py`, lines 150–189).  `genOutcome` is the outcome of the
DSPy/Groq backend call (the stripped post text on success, the raised error
otherwise); `writeSucceeds` says whether writing the example-history file
succeeds; `disk` is the on-disk example log; `now` the current timestamp.
Returns the generated post text together with the resulting on-disk log, or
propagates the backend error. -/
def analyze_commits_with_dspy (genOutcome : Except PyError (List Char))
    (writeSucceeds : Bool) (disk : List DspyExample)
    (commits_summary now : List Char) :
    Except PyError (List Char × List DspyExample) :=
  match genOutcome with
  | .error e => .error e
  | .ok post_text =>
    let metrics := mkGenerationMetrics commits_summary post_text now
    let disk' := save_dspy_example_io writeSucceeds disk
      (mkDspyExample now commits_summary post_text (some metrics))
    .ok (post_text, disk')

/-- C10: a failure to persist the example-history log file is swallowed inside
`save_dspy_example`: `analyze_commits_with_dspy` still returns the generated
post text even when writing the history file raises an error (the on-disk log
is simply left unchanged). -/
theorem analyze_returns_post_despite_write_failure
    (disk : List DspyExample) (commits_summary now post : List Char) :
    analyze_commits_with_dspy (.ok post) false disk commits_summary now =
      .ok (post, disk) := rfl

/-! ### Image payload interpretation in `upload_image_to_linkedin` (claim C6) -/

/-- How `upload_image_to_linkedin` materializes the image bytes: either fetch a
remote URL, or base64-decode a string. -/
inductive ImageSource
  | fetchUrl (url : List Char)
  | decodeBase64 (data : List Char)
deriving DecidableEq

/-- Python `s.split(",", 1)` followed by unpacking into two variables:
`some (before, after)` splits at the first comma; `none` when the string has
no comma (the unpacking then raises `ValueError`). -/
def splitOnceAtComma : List Char → Option (List Char × List Char)
  | [] => none
  | c :: rest =>
    if c = ',' then some ([], rest)
    else (splitOnceAtComma rest).map (fun p => (c :: p.1, p.2))

/-- The three-way dispatch on the image payload string in
`upload_image_to_linkedin` (`daily_workflow.py`, lines 342–358): a payload
starting with `http` is fetched as a remote URL; otherwise one starting with
`data:image` has the part after the first comma base64-decoded (no comma means
the tuple unpacking raises, modelled as `none`); any other payload is decoded
as raw base64 in full. -/
def interpretImagePayload (s : List Char) : Option ImageSource :=
  if "http".toList <+: s then some (.fetchUrl s)
  else if "data:image".toList <+: s then
    match splitOnceAtComma s with
    | some (_, encoded) => some (.decodeBase64 encoded)
    | none => none
  else some (.decodeBase64 s)

theorem splitOnceAtComma_spec : ∀ (pre post : List Char), ',' ∉ pre →
    splitOnceAtComma (pre ++ ',' :: post) = some (pre, post)
  | [], post, _ => by simp [splitOnceAtComma]
  | c :: pre, post, h => by
    have hc : c ≠ ',' := fun hc => h (hc ▸ List.mem_cons_self c pre)
    have hpre : ',' ∉ pre := fun hm => h (List.mem_cons_of_mem c hm)
    simp only [List.cons_append, splitOnceAtComma, if_neg hc, List.append_eq,
      splitOnceAtComma_spec pre post hpre]
    rfl

/-- C6: `upload_image_to_linkedin` interprets its image payload by inspecting
a fixed string prefix, in order: a payload starting with `http` is fetched as
a remote URL; otherwise a payload starting with `data:image` has the part
after its first comma base64-decoded; otherwise the whole payload is decoded
as raw base64. -/
theorem interpretImagePayload_spec :
    (∀ s : List Char, "http".toList <+: s →
      interpretImagePayload s = some (.fetchUrl s)) ∧
    (∀ pre post : List Char, ¬("http".toList <+: pre ++ ',' :: post) →
      "data:image".toList <+: pre ++ ',' :: post → ',' ∉ pre →
      interpretImagePayload (pre ++ ',' :: post) = some (.decodeBase64 post)) ∧
    (∀ s : List Char, ¬("http".toList <+: s) → ¬("data:image".toList <+: s) →
      interpretImagePayload s = some (.decodeBase64 s)) := by
  refine ⟨fun s h => ?_, fun pre post h1 h2 h3 => ?_, fun s h1 h2 => ?_⟩
  · unfold interpretImagePayload
    rw [if_pos h]
  · unfold interpretImagePayload
    rw [if_neg h1, if_pos h2, splitOnceAtComma_spec pre post h3]
  · unfold interpretImagePayload
    rw [if_neg h1, if_neg h2]

/-- Witness for C6 at concrete payloads of each of the three forms. -/
theorem interpretImagePayload_spec_witness :
    interpretImagePayload "http://example.com/i.png".toList =
        some (.fetchUrl "http://example.com/i.png".toList) ∧
      interpretImagePayload "data:image/png;base64,AAAA".toList =
        some (.decodeBase64 "AAAA".toList) ∧
      interpretImagePayload "AAAA".toList =
        some (.decodeBase64 "AAAA".toList) :=
  ⟨interpretImagePayload_spec.1 "http://example.com/i.png".toList (by decide),
   interpretImagePayload_spec.2.1 "data:image/png;base64".toList "AAAA".toList
     (by decide) (by decide) (by decide),
   interpretImagePayload_spec.2.2 "AAAA".toList (by decide) (by decide)⟩

/-! ### Author identity resolution, `_get_author_urn` (`linkedin_post.py`, claim C7) -/

/-- The response of `GET /v2/me` as far as `_get_author_urn` inspects it:
a 403 (permission denied), some other error status (`raise_for_status`
raises), or a success whose body carries `me.get("id", "")`. -/
inductive MeResponse
  | forbidden
  | httpError (status : Nat)
  | ok (id : List Char)
deriving DecidableEq

/-- The fixed URN namespace for person identities. -/
def urnLiPerson : List Char := "urn:li:person:".toList

/-- The normalization applied to both identity sources in `_get_author_urn`
(`linkedin_post.py`, lines 16 and 35): a raw id already carrying the
`urn:li:person:` namespace is kept, otherwise the namespace is prepended. -/
def normalizeAuthorUrn (raw : List Char) : List Char :=
  if urnLiPerson <+: raw then raw else urnLiPerson ++ raw

/-- Identity resolution, `_get_author_urn` (`linkedin_post.py`, lines 13–35):
a non-empty pre-configured `PERSON_URN` is used directly (normalized);
otherwise the profile endpoint is queried — a 403 raises a hard `ValueError`,
any other error status raises, and on success the returned raw id is
normalized. -/
def _get_author_urn (personUrn : List Char) (me : MeResponse) :
    Except PyError (List Char) :=
  if personUrn ≠ [] then .ok (normalizeAuthorUrn personUrn)
  else
    match me with
    | .forbidden => .error .valueError
    | .httpError _ => .error .httpError
    | .ok rawId => .ok (normalizeAuthorUrn rawId)

/-- C7: `_get_author_urn` uses the pre-configured identity when present and
otherwise queries the profile endpoint; both paths normalize the raw id the
same way, so equivalent raw ids yield the same well-formed identifier carrying
the fixed `urn:li:person:` namespace; and a 403 from the profile endpoint is
raised as a hard error. -/
theorem get_author_urn_spec :
    (∀ (cfg : List Char) (me : MeResponse), cfg ≠ [] →
      _get_author_urn cfg me = .ok (normalizeAuthorUrn cfg)) ∧
    (∀ raw : List Char,
      _get_author_urn [] (.ok raw) = .ok (normalizeAuthorUrn raw)) ∧
    (∀ (raw : List Char) (me : MeResponse), raw ≠ [] →
      _get_author_urn raw me = _get_author_urn [] (.ok raw)) ∧
    (∀ raw : List Char, urnLiPerson <+: normalizeAuthorUrn raw) ∧
    (_get_author_urn [] .forbidden = .error .valueError) := by
  refine ⟨fun cfg me h => ?_, fun raw => ?_, fun raw me h => ?_, fun raw => ?_, rfl⟩
  · unfold _get_author_urn
    rw [if_pos h]
  · rfl
  · unfold _get_author_urn
    rw [if_pos h]
    rfl
  · unfold normalizeAuthorUrn
    by_cases h : urnLiPerson <+: raw
    · rwa [if_pos h]
    · rw [if_neg h]
      exact ⟨raw, rfl⟩

/-- Witness for C7 at concrete identity values. -/
theorem get_author_urn_spec_witness :
    _get_author_urn "abc".toList .forbidden =
        .ok (normalizeAuthorUrn "abc".toList) ∧
      _get_author_urn "abc".toList (.ok "ignored".toList) =
        _get_author_urn [] (.ok "abc".toList) :=
  ⟨get_author_urn_spec.1 "abc".toList .forbidden (by decide),
   get_author_urn_spec.2.2.1 "abc".toList (.ok "ignored".toList) (by decide)⟩

/-! ### Image generation, `generate_image_with_gemini` (`daily_workflow.py`, claims C8, C2) -/

/-- One prediction of the Imagen response body: the optional
`bytesBase64Encoded` and `mimeType` fields. -/
structure GeminiPrediction where
  bytesBase64Encoded : Option (List Char)
  mimeType : Option (List Char)
deriving DecidableEq

/-- The Imagen API response as far as `generate_image_with_gemini` inspects
it: HTTP 200 with a (possibly absent, modelled as empty) `predictions` array,
HTTP 400 with an error message, any other status, or a transport error
(`requests.exceptions.RequestException`). -/
inductive GeminiResponse
  | success (predictions : List GeminiPrediction)
  | badRequest (errorMessage : List Char)
  | otherStatus (status : Nat)
  | transportError
deriving DecidableEq

/-- The billing-message test of the 400 branch
(`daily_workflow.py`, line 274): `"billed users" in error_msg.lower() or
"billing" in error_msg.lower()`. -/
def isBillingMessage (msg : List Char) : Bool :=
  let m := msg.map Char.toLower
  decide ("billed users".toList <:+: m) || decide ("billing".toList <:+: m)

/-- Image generation, `generate_image_with_gemini`
(`daily_workflow.py`, lines 192–293): raises `ValueError` when the API key is
missing; on HTTP 200 extracts the base64 image of the first prediction and
returns it as a `data:image/png;base64,...` URI (the `elif` at lines 258–261
that would consult the prediction's `mimeType` is unreachable, because its
condition requires `bytesBase64Encoded`, which the preceding `if` already
consumed), returning `none` when predictions or the encoded field are absent;
every non-200 outcome — 400 billing or otherwise, any other status, or a
transport error — yields `none` rather than an error. -/
def generate_image_with_gemini (apiKeyPresent : Bool) (resp : GeminiResponse) :
    Except PyError (Option (List Char)) :=
  if !apiKeyPresent then .error .valueError
  else .ok
    (match resp with
     | .success preds =>
       match preds.head? with
       | none => none
       | some p =>
         match p.bytesBase64Encoded with
         | some b => some ("data:image/png;base64,".toList ++ b)
         | none => none
     | .badRequest msg => if isBillingMessage msg then none else none
     | .otherStatus _ => none
     | .transportError => none)

/-- C8: the success-path of `generate_image_with_gemini` at a prediction that
carries both a base64 payload and a backend-provided MIME type
`image/jpeg`: the code returns the `image/png` data URI, ignoring the
provided MIME type (the branch that would use it is unreachable), and absence
of predictions or of the encoded field yields `none` rather than an error. -/
theorem gemini_mime_ignored :
    generate_image_with_gemini true
        (.success [{ bytesBase64Encoded := some "AAAA".toList,
                     mimeType := some "image/jpeg".toList }]) =
      .ok (some ("data:image/png;base64,AAAA".toList)) ∧
    generate_image_with_gemini true
        (.success [{ bytesBase64Encoded := some "AAAA".toList,
                     mimeType := some "image/jpeg".toList }]) ≠
      .ok (some ("data:image/jpeg;base64,AAAA".toList)) ∧
    generate_image_with_gemini true (.success []) = .ok none ∧
    generate_image_with_gemini true
        (.success [{ bytesBase64Encoded := none,
                     mimeType := some "image/jpeg".toList }]) = .ok none := by
  refine ⟨rfl, ?_, rfl, rfl⟩
  intro h
  have := Except.ok.inj h
  have h2 := Option.some.inj this
  have h3 := congrArg (List.length) h2
  simp at h3

/-! ### Commit pagination, `get_repo_commits` (`fetch_github_commits.py`, claim C9) -/

/-- A commit stub as returned by the commit-listing endpoint (only its
identity matters to the pagination loop). -/
structure CommitStub where
  sha : List Char
deriving DecidableEq

/-- One page of the commit-listing endpoint: HTTP 409 (empty repository),
another error status, or a JSON page of commit stubs. -/
inductive PageResponse
  | conflict
  | httpError (status : Nat)
  | ok (commits : List CommitStub)

/-- The pagination loop of `get_repo_commits`
(`fetch_github_commits.py`, lines 53–74), fuelled (the Python `while True`
loop; `none` models fuel exhaustion): a 409 breaks out returning what was
accumulated, an error status raises, an empty page breaks, a full page
recurses onto the next page, and a short page (fewer than `per_page = 100`
items) is appended and the loop ends. -/
def get_repo_commits_go (pages : Nat → PageResponse) :
    Nat → Nat → List CommitStub → Option (Except PyError (List CommitStub))
  | 0, _, _ => none
  | fuel + 1, page, acc =>
    match pages page with
    | .conflict => some (.ok acc)
    | .httpError _ => some (.error .httpError)
    | .ok page_commits =>
      if page_commits = [] then some (.ok acc)
      else if page_commits.length < 100 then some (.ok (acc ++ page_commits))
      else get_repo_commits_go pages fuel (page + 1) (acc ++ page_commits)

/-- `get_repo_commits` (`fetch_github_commits.py`, lines 43–76): paginate the
commit-listing endpoint starting at page 1 with an empty accumulator. -/
def get_repo_commits (pages : Nat → PageResponse) (fuel : Nat) :
    Option (Except PyError (List CommitStub)) :=
  get_repo_commits_go pages fuel 1 []

/-- C9: when the commit-listing endpoint responds with a conflict status
(HTTP 409, empty repository) to the first request, `get_repo_commits` returns
an empty result for that repository rather than raising an error. -/
theorem get_repo_commits_conflict_empty (pages : Nat → PageResponse)
    (fuel : Nat) (h409 : pages 1 = .conflict) (hfuel : 0 < fuel) :
    get_repo_commits pages fuel = some (.ok []) := by
  match fuel, hfuel with
  | fuel + 1, _ =>
    unfold get_repo_commits get_repo_commits_go
    rw [h409]

/-- Witness for C9: an endpoint that always answers 409. -/
theorem get_repo_commits_conflict_empty_witness :
    get_repo_commits (fun _ => PageResponse.conflict) 1 = some (.ok []) :=
  get_repo_commits_conflict_empty (fun _ => PageResponse.conflict) 1 rfl
    (by decide)

/-! ### The daily workflow orchestrator (`daily_workflow.py`, claims C2, C3) -/

/-- Python truthiness of the optional `image_urn` string
(`None` and the empty string are falsy). -/
def pyTruthyStr (s : Option (List Char)) : Bool :=
  match s with
  | none => false
  | some l => l ≠ []

/-- The UGC post payload as built by `post_to_linkedin_with_image`
(`daily_workflow.py`, lines 393–412): text commentary, media category
`IMAGE`/`NONE` depending on the truthiness of `image_urn`, and the media
reference added only when an image urn is present. -/
structure SharePayload where
  text : List Char
  shareMediaCategory : List Char
  media : Option (List Char)
deriving DecidableEq

/-- Payload construction of `post_to_linkedin_with_image`
(`daily_workflow.py`, lines 393–412). -/
def post_payload (post_text : List Char) (image_urn : Option (List Char)) :
    SharePayload :=
  { text := post_text
    shareMediaCategory :=
      if pyTruthyStr image_urn then "IMAGE".toList else "NONE".toList
    media := if pyTruthyStr image_urn then image_urn else none }

/-- The environment a single run of `run_daily_workflow` executes against:
the outcome of each external call, passed explicitly.  `fetchResult` is the
outcome of `fetch_commits_from_last_24_hours`; `genOutcome` the outcome of the
text-generation backend; `geminiApiKeyPresent`/`geminiResponse` feed
`generate_image_with_gemini`; `uploadResult` is the outcome of
`upload_image_to_linkedin` (asset urn or raised error); `publishSucceeds`
whether the final `POST /ugcPosts` succeeds. -/
structure WorkflowEnv where
  fetchResult : Except PyError (List CommitRecord)
  genOutcome : Except PyError (List Char)
  geminiApiKeyPresent : Bool
  geminiResponse : GeminiResponse
  uploadResult : Except PyError (List Char)
  publishSucceeds : Bool

/-- The observable outcome of one run: the process exit code (`0` on success,
`1` when the top-level handler catches a propagated error), whether the
generation, image and publish stages were invoked, and the payload submitted
to the publish endpoint (when the run reached step 5). -/
structure RunResult where
  exitCode : Nat
  genCalled : Bool
  imageCalled : Bool
  publishCalled : Bool
  published : Option SharePayload
deriving DecidableEq

/-- The orchestrator `run_daily_workflow` (`daily_workflow.py`, lines
447–573, including the `__main__` exit-code handling at lines 565–573):
step 1 fetches commits (failure is fatal); zero commits end the run
successfully without any further step; step 2 formats (pure); step 3
generates the post text (failure is fatal); step 4 generates and uploads the
image — `generate_image_with_gemini` errors are caught by the `except` at
line 527, upload errors by the `except` at line 521, both leaving
`image_urn = None`; step 5 submits the post payload (failure is fatal). -/
def run_daily_workflow (env : WorkflowEnv) : RunResult :=
  match env.fetchResult with
  | .error _ =>
    { exitCode := 1, genCalled := false, imageCalled := false,
      publishCalled := false, published := none }
  | .ok commits =>
    if commits = [] then
      { exitCode := 0, genCalled := false, imageCalled := false,
        publishCalled := false, published := none }
    else
      let _commits_summary := format_commits_for_analysis commits
      match env.genOutcome with
      | .error _ =>
        { exitCode := 1, genCalled := true, imageCalled := false,
          publishCalled := false, published := none }
      | .ok post_text =>
        let image_urn : Option (List Char) :=
          match generate_image_with_gemini env.geminiApiKeyPresent
              env.geminiResponse with
          | .error _ => none
          | .ok none => none
          | .ok (some _image_url) =>
            match env.uploadResult with
            | .ok urn => some urn
            | .error _ => none
        if env.publishSucceeds then
          { exitCode := 0, genCalled := true, imageCalled := true,
            publishCalled := true,
            published := some (post_payload post_text image_urn) }
        else
          { exitCode := 1, genCalled := true, imageCalled := true,
            publishCalled := true,
            published := some (post_payload post_text image_urn) }

/-- C2: for every failure in the image stage — a billing rejection or any
other 400, a malformed image-API response (no predictions or no encoded
field), a transport error, a missing image API key, or a LinkedIn
image-upload failure — the workflow still submits the post with no media
reference (`shareMediaCategory = "NONE"`, no media entry) and the run exits
with status 0: image-stage errors never propagate to the publish stage as
fatal. -/
theorem image_failure_degrades_to_text_only
    (env : WorkflowEnv) (commits : List CommitRecord) (post : List Char)
    (hf : env.fetchResult = .ok commits) (hne : commits ≠ [])
    (hg : env.genOutcome = .ok post) (hp : env.publishSucceeds = true)
    (hfail :
      (∃ msg, env.geminiResponse = .badRequest msg) ∨
      (∃ s, env.geminiResponse = .otherStatus s) ∨
      env.geminiResponse = .transportError ∨
      env.geminiResponse = .success [] ∨
      (∃ p ps, env.geminiResponse = .success (p :: ps) ∧
        p.bytesBase64Encoded = none) ∨
      env.geminiApiKeyPresent = false ∨
      (∃ e, env.uploadResult = .error e)) :
    run_daily_workflow env =
      { exitCode := 0, genCalled := true, imageCalled := true,
        publishCalled := true,
        published := some { text := post,
                            shareMediaCategory := "NONE".toList,
                            media := none } } := by
  unfold run_daily_workflow
  rw [hf]
  simp only [if_neg hne, hg, hp, if_true]
  have hurn : (match generate_image_with_gemini env.geminiApiKeyPresent
      env.geminiResponse with
    | .error _ => none
    | .ok none => none
    | .ok (some _image_url) =>
      match env.uploadResult with
      | .ok urn => some urn
      | .error _ => (none : Option (List Char))) = none := by
    unfold generate_image_with_gemini
    cases hkey : env.geminiApiKeyPresent with
    | false => rfl
    | true =>
      simp only [Bool.not_true, Bool.false_eq_true, if_false]
      rcases hfail with ⟨msg, hr⟩ | ⟨s, hr⟩ | hr | hr | ⟨p, ps, hr, hb⟩ | hr | ⟨e, hr⟩
      · rw [hr]
        by_cases hb : isBillingMessage msg <;> simp [hb]
      · rw [hr]
      · rw [hr]
      · rw [hr]
        rfl
      · rw [hr]
        simp [List.head?, hb]
      · rw [hkey] at hr
        exact absurd hr (by decide)
      · cases hgem : (match env.geminiResponse with
          | GeminiResponse.success preds =>
            match preds.head? with
            | none => none
            | some p =>
              match p.bytesBase64Encoded with
              | some b => some ("data:image/png;base64,".toList ++ b)
              | none => none
          | GeminiResponse.badRequest msg =>
            if isBillingMessage msg then none else none
          | GeminiResponse.otherStatus _ => none
          | GeminiResponse.transportError => (none : Option (List Char))) with
        | none => rfl
        | some u => simp [hr]
  rw [hurn]
  rfl

/-- Witness for C2: a concrete run whose image stage hits a transport error
still publishes text-only with exit code 0. -/
theorem image_failure_degrades_to_text_only_witness :
    run_daily_workflow
        { fetchResult := .ok [sampleCommit]
          genOutcome := .ok "my post".toList
          geminiApiKeyPresent := true
          geminiResponse := .transportError
          uploadResult := .ok "urn:li:digitalmediaAsset:X".toList
          publishSucceeds := true } =
      { exitCode := 0, genCalled := true, imageCalled := true,
        publishCalled := true,
        published := some { text := "my post".toList,
                            shareMediaCategory := "NONE".toList,
                            media := none } } :=
  image_failure_degrades_to_text_only _ [sampleCommit] "my post".toList rfl
    (List.cons_ne_nil sampleCommit []) rfl rfl
    (Or.inr (Or.inr (Or.inl rfl)))

/-- C3: for an empty commit sequence, `format_commits_for_analysis` returns
exactly the fixed no-activity sentinel string, and `run_daily_workflow`
performs no generation, image, or publish calls and exits with status 0. -/
theorem empty_commits_early_success :
    format_commits_for_analysis [] =
        "No commits found in the last 24 hours.".toList ∧
      ∀ env : WorkflowEnv, env.fetchResult = .ok [] →
        run_daily_workflow env =
          { exitCode := 0, genCalled := false, imageCalled := false,
            publishCalled := false, published := none } := by
  refine ⟨rfl, fun env hf => ?_⟩
  unfold run_daily_workflow
  rw [hf]
  rfl

/-- Witness for C3: a concrete run that fetched zero commits. -/
theorem empty_commits_early_success_witness :
    run_daily_workflow
        { fetchResult := .ok []
          genOutcome := .ok "my post".toList
          geminiApiKeyPresent := true
          geminiResponse := .transportError
          uploadResult := .ok "urn".toList
          publishSucceeds := true } =
      { exitCode := 0, genCalled := false, imageCalled := false,
        publishCalled := false, published := none } :=
  empty_commits_early_success.2 _ rfl
